import Mathlib

/-!
# Verification of the rate-limiter component (`src/bin/rate_limiter.rs`)

Shallow embedding of the three rate-limiting algorithms: fixed window,
moving (sliding) window with interpolation, and token bucket.

Modelling conventions:
* Instants and durations are `Nat` values counted in whole microseconds.
  The source's `Duration` has nanosecond resolution, but every arithmetic
  step the claims exercise happens at microsecond granularity or coarser
  (`as_micros` conversions); "one tick" is one microsecond in this model.
* `Instant::duration_since` saturates to zero when the argument is later
  than the receiver, exactly like `Nat` subtraction, so `now - earlier`
  is a faithful translation.
* The source reads `Instant::now()` inside each method; the embedding
  takes the current instant as an explicit `now : Nat` argument, the
  standard clock-injection reading of the same code.
* `usize` counters are modelled as `Nat`.  No claim exercises `usize`
  wrap-around (counters stay below `limit`, and the token-credit sum
  `tokens + new_tokens` is far below `2^64` for every input considered),
  so machine-width reduction is not modelled.
* The token bucket's `f64` arithmetic is modelled exactly over `ℚ` with
  an explicit IEEE-754 binary64 round-to-nearest-even operator
  (`roundF64`), applied after each floating-point operation just as the
  hardware would.  Overflow and subnormal behaviour of `f64` are outside
  the exercised magnitude range and are not modelled; division by a zero
  window (which yields `+inf` in `f64`) is likewise outside the valid
  configurations all claims assume.
-/

/-- All elements of a list satisfy `p` (binder-free form used in theorem
conclusions so concrete instances are closed propositions). -/
def ListAll {α : Type} (p : α → Prop) : List α → Prop
  | [] => True
  | x :: xs => p x ∧ ListAll p xs

/-! ## IEEE-754 binary64 rounding model

Every `f64` value arising in `TokenBucket::new_tokens` is a nonnegative
dyadic rational; it is represented exactly as a `Nat × Nat` fraction
`(num, den)`.  Each floating-point operation computes the exact rational
result and rounds it to 53 significant bits, round-to-nearest-even —
exactly the IEEE-754 binary64 behaviour on the normal range (subnormals
and overflow are far outside the magnitudes exercised here and are not
modelled; nor is the `+inf` produced by a zero `window`, which only an
invalid configuration can reach). -/

/-- Round the fraction `n / d` (with `d > 0`) to the nearest integer,
ties to even. -/
def roundHalfEven (n d : Nat) : Nat :=
  let q := n / d
  let r := n % d
  if 2 * r < d then q
  else if d < 2 * r then q + 1
  else if q % 2 = 0 then q else q + 1

/-- Fuelled floor-log₂ (structural recursion so the kernel can evaluate
it on literals, unlike the well-founded `Nat.log2`). -/
def natLog2F : Nat → Nat → Nat
  | 0, _ => 0
  | fuel + 1, n => if n < 2 then 0 else natLog2F fuel (n / 2) + 1

/-- `⌊log₂ n⌋` for `n ≥ 1` (`n` itself is always enough fuel). -/
def natLog2 (n : Nat) : Nat :=
  natLog2F n n

/-- `⌊log₂ (n / d)⌋` for `n, d ≥ 1`: the unique `e : ℤ` with
`2^e ≤ n / d < 2^(e+1)`. -/
def flog2Frac (n d : Nat) : ℤ :=
  let e : ℤ := (natLog2 n : ℤ) - (natLog2 d : ℤ)
  if 0 ≤ e then (if 2 ^ e.toNat * d ≤ n then e else e - 1)
  else (if d ≤ n * 2 ^ (-e).toNat then e else e - 1)

/-- Round the nonnegative fraction `n / d` to the nearest IEEE-754
binary64 value (53-bit significand, round-to-nearest-even), returned as
an exact fraction. -/
def roundF64Frac (n d : Nat) : Nat × Nat :=
  if n = 0 then (0, 1)
  else
    let s := flog2Frac n d - 52
    if 0 ≤ s then (roundHalfEven n (d * 2 ^ s.toNat) * 2 ^ s.toNat, 1)
    else (roundHalfEven (n * 2 ^ (-s).toNat) d, 2 ^ (-s).toNat)

/-- A `Nat` cast to `f64` (`as f64`), as an exact fraction. -/
def f64ofNat (n : Nat) : Nat × Nat :=
  roundF64Frac n 1

/-! ## FixedWindow -/

/-- State of `FixedWindow` (fields as in the source). -/
structure FixedWindow where
  window_start : Nat
  hits : Nat
  window : Nat
  limit : Nat
  deriving Repr, DecidableEq

/-- `FixedWindow::new` (the source initialises `window_start` with
`Instant::now()`, passed here as `now`). -/
def FixedWindow.new (window limit now : Nat) : FixedWindow :=
  { window_start := now, hits := 0, window := window, limit := limit }

/-- `FixedWindow::allowed`: reset the window if strictly more than `window`
has elapsed, then admit iff `hits < limit`. -/
def FixedWindow.allowed (s : FixedWindow) (now : Nat) : Bool × FixedWindow :=
  let s1 := if s.window < now - s.window_start
    then { s with window_start := now, hits := 0 }
    else s
  if s1.limit ≤ s1.hits then (false, s1)
  else (true, { s1 with hits := s1.hits + 1 })

/-- Run a sequence of `allowed` calls, collecting the returned booleans. -/
def FixedWindow.run (s : FixedWindow) : List Nat → List Bool × FixedWindow
  | [] => ([], s)
  | t :: ts =>
    let r := s.allowed t
    let rest := r.2.run ts
    (r.1 :: rest.1, rest.2)

/-- The states observed at the end of each `allowed` call in a sequence. -/
def FixedWindow.runStates (s : FixedWindow) : List Nat → List FixedWindow
  | [] => []
  | t :: ts =>
    let s1 := (s.allowed t).2
    s1 :: s1.runStates ts

/-! ## MovingWindow -/

/-- State of `MovingWindow` (fields as in the source). -/
structure MovingWindow where
  prev_start : Nat
  prev_count : Nat
  this_start : Nat
  this_count : Nat
  window : Nat
  limit : Nat
  deriving Repr, DecidableEq

/-- `MovingWindow::new`: both window starts are the construction instant. -/
def MovingWindow.new (window limit now : Nat) : MovingWindow :=
  { prev_start := now, prev_count := 0, this_start := now, this_count := 0,
    window := window, limit := limit }

/-- One iteration of the catch-up loop body: cycle the current window into
the previous slot and advance `this_start` by one `window`. -/
def MovingWindow.shiftWin (s : MovingWindow) : MovingWindow :=
  { s with prev_start := s.this_start, prev_count := s.this_count,
           this_start := s.this_start + s.window, this_count := 0 }

/-- The catch-up `while` loop of `MovingWindow::allowed`: shift windows while
`now - this_start > window`.  For `window = 0` the source loop never
terminates once entered; the embedding returns the state unchanged in that
(invalid-configuration) case, and every theorem below that depends on the
loop assumes `0 < window`. -/
def MovingWindow.catchUp (now : Nat) (s : MovingWindow) : MovingWindow :=
  if h : s.window < now - s.this_start then
    if h0 : s.window = 0 then s
    else MovingWindow.catchUp now s.shiftWin
  else s
termination_by now - s.this_start
decreasing_by
  simp only [MovingWindow.shiftWin]
  omega

/-- `MovingWindow::allowed`: catch up, interpolate the previous window's
count over the remaining weight, and admit iff the estimate is under
`limit`. -/
def MovingWindow.allowed (s : MovingWindow) (now : Nat) : Bool × MovingWindow :=
  let s1 := MovingWindow.catchUp now s
  let this_period := now - s1.this_start
  let last_period := s1.window - this_period
  let hits_from_last_period := s1.prev_count * last_period / s1.window
  if s1.limit ≤ s1.this_count + hits_from_last_period then (false, s1)
  else (true, { s1 with this_count := s1.this_count + 1 })

/-- The admission decision of §4.3 of the spec, written from the spec's
words (steps 2–4: `elapsed_in_current`, `remaining_weight`, floor-carried
estimate, deny on `this_count + carried ≥ limit`), to be compared with the
source's post-catch-up computation. -/
def MovingWindow.specDecision (s : MovingWindow) (now : Nat) : Bool × MovingWindow :=
  let elapsed_in_current := now - s.this_start
  let remaining_weight := s.window - elapsed_in_current
  let carried := s.prev_count * remaining_weight / s.window
  if s.this_count + carried ≥ s.limit then (false, s)
  else (true, { s with this_count := s.this_count + 1 })

/-- Fuel-indexed version of the catch-up loop, making termination of the
source's `while` loop an explicit theorem: `none` means the fuel ran out. -/
def MovingWindow.catchUpFuel : Nat → Nat → MovingWindow → Option MovingWindow
  | 0, _, _ => none
  | fuel + 1, now, s =>
    if s.window < now - s.this_start then
      MovingWindow.catchUpFuel fuel now s.shiftWin
    else some s

/-- Fuel-indexed `MovingWindow::allowed` (loop given explicit fuel). -/
def MovingWindow.allowedFuel (fuel : Nat) (s : MovingWindow) (now : Nat) :
    Option (Bool × MovingWindow) :=
  match MovingWindow.catchUpFuel fuel now s with
  | none => none
  | some s1 =>
    let this_period := now - s1.this_start
    let last_period := s1.window - this_period
    let hits_from_last_period := s1.prev_count * last_period / s1.window
    if s1.limit ≤ s1.this_count + hits_from_last_period then some (false, s1)
    else some (true, { s1 with this_count := s1.this_count + 1 })

/-- The states observed at the end of each `allowed` call in a sequence. -/
def MovingWindow.runStates (s : MovingWindow) : List Nat → List MovingWindow
  | [] => []
  | t :: ts =>
    let s1 := (s.allowed t).2
    s1 :: s1.runStates ts

/-! ## TokenBucket -/

/-- State of `TokenBucket` (fields as in the source). -/
structure TokenBucket where
  tokens : Nat
  last_hit : Nat
  window : Nat
  limit : Nat
  deriving Repr, DecidableEq

/-- `TokenBucket::new`: zero tokens, `last_hit` is the construction instant. -/
def TokenBucket.new (window limit now : Nat) : TokenBucket :=
  { tokens := 0, last_hit := now, window := window, limit := limit }

/-- `TokenBucket::new_tokens`: `(elapsed.as_micros() as f64 * (limit as f64 /
window.as_micros() as f64)) as usize`, each `f64` operation rounded to
binary64 and the final `as usize` truncating toward zero. -/
def TokenBucket.new_tokens (s : TokenBucket) (now : Nat) : Nat :=
  let elapsed : Nat := now - s.last_hit
  let l := f64ofNat s.limit
  let w := f64ofNat s.window
  let rate := roundF64Frac (l.1 * w.2) (l.2 * w.1)
  let e := f64ofNat elapsed
  let prod := roundF64Frac (e.1 * rate.1) (e.2 * rate.2)
  prod.1 / prod.2

/-- `TokenBucket::allowed`: credit `new_tokens` (capping at `limit` and
advancing `last_hit` only when the credit is positive), then spend one
token if available. -/
def TokenBucket.allowed (s : TokenBucket) (now : Nat) : Bool × TokenBucket :=
  let nt := s.new_tokens now
  let s1 := if 0 < nt
    then { s with tokens := min (s.tokens + nt) s.limit, last_hit := now }
    else s
  if s1.tokens = 0 then (false, s1)
  else (true, { s1 with tokens := s1.tokens - 1 })

/-- The states observed at the end of each `allowed` call in a sequence. -/
def TokenBucket.runStates (s : TokenBucket) : List Nat → List TokenBucket
  | [] => []
  | t :: ts =>
    let s1 := (s.allowed t).2
    s1 :: s1.runStates ts

/-! ## Invariants under scrutiny -/

/-- `FixedWindow` counter bound (§3 of the spec; nonnegativity is the
`Nat` type). -/
def FixedWindow.inv (s : FixedWindow) : Prop :=
  s.hits ≤ s.limit

/-- `MovingWindow` counter bounds (§3 of the spec). -/
def MovingWindow.inv (s : MovingWindow) : Prop :=
  s.this_count ≤ s.limit ∧ s.prev_count ≤ s.limit

/-- `TokenBucket` token-count bound (§3 of the spec). -/
def TokenBucket.inv (s : TokenBucket) : Prop :=
  s.tokens ≤ s.limit

/-- Window-adjacency relation of a `MovingWindow` state: either the two
starts are one `window` apart (as the spec's §3 invariant table asserts),
or they coincide (the extra case the constructor actually produces). -/
def MovingWindow.adj (s : MovingWindow) : Prop :=
  s.this_start = s.prev_start + s.window ∨ s.this_start = s.prev_start

/-! ## Helper lemmas -/

theorem MovingWindow.catchUp_fields (now : Nat) (s : MovingWindow) :
    (MovingWindow.catchUp now s).window = s.window ∧
    (MovingWindow.catchUp now s).limit = s.limit := by
  refine MovingWindow.catchUp.induct now
    (fun s => (MovingWindow.catchUp now s).window = s.window ∧
      (MovingWindow.catchUp now s).limit = s.limit) ?_ ?_ ?_ s
  · intro x h h0
    rw [MovingWindow.catchUp]
    simp [h, h0]
  · intro x h h0 ih
    rw [MovingWindow.catchUp]
    simp only [dif_pos h, dif_neg h0]
    simpa [MovingWindow.shiftWin] using ih
  · intro x h
    rw [MovingWindow.catchUp]
    simp [h]

theorem MovingWindow.catchUp_inv (now : Nat) (s : MovingWindow) (h : s.inv) :
    (MovingWindow.catchUp now s).inv := by
  refine MovingWindow.catchUp.induct now
    (fun s => s.inv → (MovingWindow.catchUp now s).inv) ?_ ?_ ?_ s h
  · intro x h h0 hx
    rw [MovingWindow.catchUp]
    simp [h, h0, hx]
  · intro x h h0 ih hx
    rw [MovingWindow.catchUp]
    simp only [dif_pos h, dif_neg h0]
    exact ih ⟨Nat.zero_le _, hx.1⟩
  · intro x h hx
    rw [MovingWindow.catchUp]
    simp [h, hx]

theorem MovingWindow.catchUp_zeros_absorb (now : Nat) (s : MovingWindow)
    (hp : s.prev_count = 0) (ht : s.this_count = 0) :
    (MovingWindow.catchUp now s).prev_count = 0 ∧
    (MovingWindow.catchUp now s).this_count = 0 := by
  refine MovingWindow.catchUp.induct now
    (fun s => s.prev_count = 0 → s.this_count = 0 →
      (MovingWindow.catchUp now s).prev_count = 0 ∧
      (MovingWindow.catchUp now s).this_count = 0) ?_ ?_ ?_ s hp ht
  · intro x h h0 hxp hxt
    rw [MovingWindow.catchUp]
    simp [h, h0, hxp, hxt]
  · intro x h h0 ih hxp hxt
    rw [MovingWindow.catchUp]
    simp only [dif_pos h, dif_neg h0]
    exact ih hxt rfl
  · intro x h hxp hxt
    rw [MovingWindow.catchUp]
    simp [h, hxp, hxt]

theorem MovingWindow.catchUp_step (now : Nat) (s : MovingWindow)
    (hw : s.window ≠ 0) (hc : s.window < now - s.this_start) :
    MovingWindow.catchUp now s = MovingWindow.catchUp now s.shiftWin := by
  rw [MovingWindow.catchUp]
  simp [hc, hw]

theorem MovingWindow.catchUp_multiple (now : Nat) (s : MovingWindow) :
    ∃ k, (MovingWindow.catchUp now s).this_start = s.this_start + k * s.window := by
  refine MovingWindow.catchUp.induct now
    (fun s => ∃ k,
      (MovingWindow.catchUp now s).this_start = s.this_start + k * s.window) ?_ ?_ ?_ s
  · intro x h h0
    rw [MovingWindow.catchUp]
    exact ⟨0, by simp [h, h0]⟩
  · intro x h h0 ih
    rw [MovingWindow.catchUp]
    simp only [dif_pos h, dif_neg h0]
    obtain ⟨k, hk⟩ := ih
    refine ⟨k + 1, ?_⟩
    rw [hk]
    simp [MovingWindow.shiftWin]
    ring
  · intro x h
    rw [MovingWindow.catchUp]
    exact ⟨0, by simp [h]⟩

theorem MovingWindow.catchUp_adj (now : Nat) (s : MovingWindow) (h : s.adj) :
    (MovingWindow.catchUp now s).adj := by
  refine MovingWindow.catchUp.induct now
    (fun s => s.adj → (MovingWindow.catchUp now s).adj) ?_ ?_ ?_ s h
  · intro x h h0 hx
    rw [MovingWindow.catchUp]
    simpa [h, h0] using hx
  · intro x h h0 ih hx
    rw [MovingWindow.catchUp]
    simp only [dif_pos h, dif_neg h0]
    exact ih (Or.inl (by simp [MovingWindow.shiftWin]))
  · intro x h hx
    rw [MovingWindow.catchUp]
    simpa [h] using hx

theorem fw_allowed_inv (s : FixedWindow) (now : Nat) (h : s.inv) :
    ((s.allowed now).2).inv := by
  unfold FixedWindow.inv at *
  unfold FixedWindow.allowed
  dsimp only
  split
  all_goals split
  all_goals simp_all
  all_goals omega

theorem mw_allowed_inv (s : MovingWindow) (now : Nat) (h : s.inv) :
    ((s.allowed now).2).inv := by
  have h1 := MovingWindow.catchUp_inv now s h
  unfold MovingWindow.allowed
  unfold MovingWindow.inv at h1 ⊢
  generalize MovingWindow.catchUp now s = s1 at h1 ⊢
  obtain ⟨ht, hp⟩ := h1
  dsimp only
  split
  · exact ⟨ht, hp⟩
  · next hcond =>
    dsimp only
    simp only [Nat.not_le] at hcond
    exact ⟨Nat.lt_of_le_of_lt (Nat.le_add_right _ _) hcond, hp⟩

theorem tb_allowed_inv (s : TokenBucket) (now : Nat) (h : s.inv) :
    ((s.allowed now).2).inv := by
  unfold TokenBucket.inv at *
  unfold TokenBucket.allowed
  dsimp only
  split
  all_goals split
  all_goals simp_all
  all_goals omega

theorem fw_runStates_inv (ts : List Nat) (s : FixedWindow) (h : s.inv) :
    ListAll FixedWindow.inv (s.runStates ts) := by
  induction ts generalizing s with
  | nil => trivial
  | cons t ts ih =>
    exact ⟨fw_allowed_inv s t h, ih _ (fw_allowed_inv s t h)⟩

theorem mw_runStates_inv (ts : List Nat) (s : MovingWindow) (h : s.inv) :
    ListAll MovingWindow.inv (s.runStates ts) := by
  induction ts generalizing s with
  | nil => trivial
  | cons t ts ih =>
    exact ⟨mw_allowed_inv s t h, ih _ (mw_allowed_inv s t h)⟩

theorem tb_runStates_inv (ts : List Nat) (s : TokenBucket) (h : s.inv) :
    ListAll TokenBucket.inv (s.runStates ts) := by
  induction ts generalizing s with
  | nil => trivial
  | cons t ts ih =>
    exact ⟨tb_allowed_inv s t h, ih _ (tb_allowed_inv s t h)⟩

theorem MovingWindow.catchUpFuel_suff (fuel : Nat) :
    ∀ (now : Nat) (s : MovingWindow), 0 < s.window →
      now - s.this_start < fuel →
      MovingWindow.catchUpFuel fuel now s = some (MovingWindow.catchUp now s) := by
  induction fuel with
  | zero => intro now s _ hf; omega
  | succ g ih =>
    intro now s hw hf
    rw [MovingWindow.catchUpFuel, MovingWindow.catchUp]
    by_cases hc : s.window < now - s.this_start
    · have hw' : ¬ s.window = 0 := by omega
      simp only [if_pos hc, dif_pos hc, dif_neg hw']
      refine ih now s.shiftWin (by simpa [MovingWindow.shiftWin] using hw) ?_
      simp only [MovingWindow.shiftWin]
      omega
    · simp [hc]

/-! ## Claims -/

set_option maxRecDepth 16384

/-- **C1**: for a `FixedWindow` limiter with `window = 60s`, `limit = 5`
built at `t0`, five `allowed` calls at `t0` return `true`, a sixth at `t0`
returns `false`, a call at exactly `t0 + 60s` still counts against the old
window and returns `false`, and a call one tick later resets the counter
and returns `true` (the expiry comparison being strict `>`). -/
theorem spec_C1 (t0 : Nat) :
    ((FixedWindow.new 60000000 5 t0).run
      [t0, t0, t0, t0, t0, t0, t0 + 60000000, t0 + 60000001]).1 =
      [true, true, true, true, true, false, false, true] := by
  simp [FixedWindow.run, FixedWindow.allowed, FixedWindow.new]

/-- **C2**: for all three variants with positive `window` and `limit ≥ 1`
and any non-decreasing call sequence, the internal counters (`hits`,
`prev_count`/`this_count`, `tokens`) never exceed `limit` at the end of
any call (non-negativity is carried by the `Nat` type, matching the
unsigned `usize` of the source). -/
theorem spec_C2 (w l t0 : Nat) (ts : List Nat) (hw : 0 < w) (hl : 1 ≤ l)
    (hmono : List.Chain' (· ≤ ·) (t0 :: ts)) :
    ListAll FixedWindow.inv ((FixedWindow.new w l t0).runStates ts) ∧
    ListAll MovingWindow.inv ((MovingWindow.new w l t0).runStates ts) ∧
    ListAll TokenBucket.inv ((TokenBucket.new w l t0).runStates ts) := by
  refine ⟨fw_runStates_inv ts _ ?_, mw_runStates_inv ts _ ?_,
    tb_runStates_inv ts _ ?_⟩
  · simp [FixedWindow.inv, FixedWindow.new]
  · constructor <;> simp [MovingWindow.new]
  · simp [TokenBucket.inv, TokenBucket.new]

/-- Witness for C2 at `window = 60`, `limit = 2`, calls at `0, 1`. -/
theorem spec_C2_witness :
    ListAll FixedWindow.inv ((FixedWindow.new 60 2 0).runStates [0, 1]) ∧
    ListAll MovingWindow.inv ((MovingWindow.new 60 2 0).runStates [0, 1]) ∧
    ListAll TokenBucket.inv ((TokenBucket.new 60 2 0).runStates [0, 1]) :=
  spec_C2 60 2 0 [0, 1] (by decide) (by decide) (by simp [List.chain'_cons, List.chain'_singleton])

/-- **C3** (code bug): the claim says a freshly built `TokenBucket` denies
at zero elapsed time and then, after waiting exactly `window / limit`,
admits.  With `window = 49 µs`, `limit = 1`, the call at exactly
`window / limit = 49 µs` computes `49 × fl64(1/49) =
0.99999999999999989…`, which truncates to `0` tokens, so the code returns
`false` where the claim (and the spec's `floor(elapsed · rate)` formula,
which equals `1` exactly) says `true`. -/
theorem spec_C3 :
    (TokenBucket.new 49 1 0).tokens = 0 ∧
    ((TokenBucket.new 49 1 0).allowed 0).1 = false ∧
    (TokenBucket.new 49 1 0).new_tokens 49 = 0 ∧
    ((TokenBucket.new 49 1 0).allowed 49).1 = false := by
  decide

/-- **C4**: if more than two window durations have elapsed since
`this_start`, the catch-up loop zeroes both `prev_count` and `this_count`
before the admission decision, and the call is admitted exactly as a
freshly constructed limiter would admit it. -/
theorem spec_C4 (s : MovingWindow) (now : Nat) (hw : 0 < s.window)
    (hl : 1 ≤ s.limit) (hgap : 2 * s.window < now - s.this_start) :
    (MovingWindow.catchUp now s).prev_count = 0 ∧
    (MovingWindow.catchUp now s).this_count = 0 ∧
    (s.allowed now).1 = true ∧
    (s.allowed now).1 = ((MovingWindow.new s.window s.limit now).allowed now).1 := by
  have hw' : s.window ≠ 0 := by omega
  have hc1 : s.window < now - s.this_start := by omega
  have e1 := MovingWindow.catchUp_step now s hw' hc1
  have hc2 : s.shiftWin.window < now - s.shiftWin.this_start := by
    simp only [MovingWindow.shiftWin]
    omega
  have e2 := MovingWindow.catchUp_step now s.shiftWin
    (by simpa [MovingWindow.shiftWin] using hw') hc2
  have hzero := MovingWindow.catchUp_zeros_absorb now s.shiftWin.shiftWin
    (by simp [MovingWindow.shiftWin]) (by simp [MovingWindow.shiftWin])
  have hz : (MovingWindow.catchUp now s).prev_count = 0 ∧
      (MovingWindow.catchUp now s).this_count = 0 := by
    rw [e1, e2]
    exact hzero
  have hfields := MovingWindow.catchUp_fields now s
  have htrue : (s.allowed now).1 = true := by
    unfold MovingWindow.allowed
    dsimp only
    rw [hz.1, hz.2, hfields.2]
    simp only [Nat.zero_mul, Nat.zero_div, Nat.add_zero]
    rw [if_neg (by omega)]
  have hfresh : ((MovingWindow.new s.window s.limit now).allowed now).1 = true := by
    unfold MovingWindow.allowed
    rw [MovingWindow.catchUp]
    rw [dif_neg (by simp [MovingWindow.new])]
    dsimp only [MovingWindow.new]
    simp only [Nat.zero_mul, Nat.zero_div, Nat.add_zero]
    rw [if_neg (by omega)]
  exact ⟨hz.1, hz.2, htrue, htrue.trans hfresh.symm⟩

/-- Witness for C4: `window = 10`, `limit = 3`, state aged far past two
windows. -/
theorem spec_C4_witness :
    (MovingWindow.catchUp 100 (MovingWindow.new 10 3 0)).prev_count = 0 ∧
    (MovingWindow.catchUp 100 (MovingWindow.new 10 3 0)).this_count = 0 ∧
    ((MovingWindow.new 10 3 0).allowed 100).1 = true ∧
    ((MovingWindow.new 10 3 0).allowed 100).1 =
      ((MovingWindow.new 10 3 100).allowed 100).1 :=
  spec_C4 (MovingWindow.new 10 3 0) 100 (by decide) (by decide) (by decide)

/-- **C5**: `TokenBucket::allowed` writes `last_hit := now` exactly when
the freshly credited `new_tokens` is strictly positive; when it is zero
the accrual baseline `last_hit` is left untouched, preserving sub-token
fractional progress. -/
theorem spec_C5 (s : TokenBucket) (now : Nat) :
    ((s.allowed now).2).last_hit =
      if 0 < s.new_tokens now then now else s.last_hit := by
  unfold TokenBucket.allowed
  dsimp only
  by_cases h : 0 < s.new_tokens now
  · simp only [if_pos h]
    split <;> rfl
  · simp only [if_neg h]
    split <;> rfl

/-- **C6**: every `MovingWindow::allowed` call equals the spec's §4.3
decision applied to the caught-up state: carried hits are
`⌊prev_count · remaining_weight / window⌋` in integer arithmetic, the call
denies when `this_count + carried ≥ limit` and otherwise increments
`this_count` and allows. -/
theorem spec_C6 (s : MovingWindow) (now : Nat) (hw : 0 < s.window) :
    s.allowed now = (MovingWindow.catchUp now s).specDecision now := by
  unfold MovingWindow.allowed MovingWindow.specDecision
  simp only [ge_iff_le]

/-- Witness for C6 on a state that needs several catch-up iterations. -/
theorem spec_C6_witness :
    (MovingWindow.new 1000000 10 0).allowed 5000000 =
      (MovingWindow.catchUp 5000000 (MovingWindow.new 1000000 10 0)).specDecision
        5000000 :=
  spec_C6 (MovingWindow.new 1000000 10 0) 5000000 (by decide)

/-- Counterexample to **C7** as stated: immediately after construction
`this_start = prev_start`, not `prev_start + window`. -/
theorem spec_C7_cex :
    ¬ ((MovingWindow.new 60 5 0).this_start =
        (MovingWindow.new 60 5 0).prev_start + (MovingWindow.new 60 5 0).window) := by
  decide

/-- **C7** (amended): immediately after construction the two starts
coincide; across every `allowed` call the state keeps the relation
`this_start = prev_start + window ∨ this_start = prev_start` (the first
disjunct holding as soon as the catch-up loop has ever shifted), and
`this_start` only ever advances by whole multiples of `window`. -/
theorem spec_C7 :
    (∀ w l t0, (MovingWindow.new w l t0).this_start =
      (MovingWindow.new w l t0).prev_start) ∧
    (∀ (s : MovingWindow) (now : Nat), s.adj → ((s.allowed now).2).adj) ∧
    (∀ (s : MovingWindow) (now : Nat), ∃ k,
      ((s.allowed now).2).this_start = s.this_start + k * s.window) := by
  refine ⟨fun w l t0 => rfl, ?_, ?_⟩
  · intro s now h
    have h1 := MovingWindow.catchUp_adj now s h
    unfold MovingWindow.allowed
    dsimp only
    split
    · exact h1
    · unfold MovingWindow.adj at h1 ⊢
      simpa using h1
  · intro s now
    obtain ⟨k, hk⟩ := MovingWindow.catchUp_multiple now s
    refine ⟨k, ?_⟩
    unfold MovingWindow.allowed
    dsimp only
    split
    · exact hk
    · simpa using hk

/-- Witness for C7's preservation conjunct at a concrete state. -/
theorem spec_C7_witness : MovingWindow.adj (((MovingWindow.new 5 2 0).allowed 3).2) :=
  spec_C7.2.1 (MovingWindow.new 5 2 0) 3 (Or.inr rfl)

/-- **C8** (code bug): none of the three constructors validates its
configuration — `new(0, 0)` succeeds on every variant (and `allowed` can
then still be called), where the claim requires construction to fail with
`InvalidConfiguration`; §9 of the spec itself records the missing
validation as a defect of the source. -/
theorem spec_C8 :
    (FixedWindow.new 0 0 0).window = 0 ∧ (FixedWindow.new 0 0 0).limit = 0 ∧
    (MovingWindow.new 0 0 0).window = 0 ∧ (MovingWindow.new 0 0 0).limit = 0 ∧
    (TokenBucket.new 0 0 0).window = 0 ∧ (TokenBucket.new 0 0 0).limit = 0 ∧
    ((FixedWindow.new 0 0 0).allowed 1).1 = false := by
  decide

/-- **C9**: on every valid configuration (`0 < window`) the catch-up loop
of `MovingWindow::allowed` terminates — `now - this_start + 1` iterations
of fuel always suffice, because `this_start` strictly advances by one
positive `window` per iteration — and the fuelled loop computes exactly
the total function `allowed` of the embedding.  (`FixedWindow::allowed`
and `TokenBucket::allowed` are loop-free and total by construction.) -/
theorem spec_C9 (s : MovingWindow) (now : Nat) (hw : 0 < s.window) :
    MovingWindow.allowedFuel (now - s.this_start + 1) s now = some (s.allowed now) := by
  unfold MovingWindow.allowedFuel
  rw [MovingWindow.catchUpFuel_suff (now - s.this_start + 1) now s hw (by omega)]
  unfold MovingWindow.allowed
  dsimp only
  split <;> rfl

/-- Witness for C9 on a state whose loop runs four times. -/
theorem spec_C9_witness :
    MovingWindow.allowedFuel (5000000 - (MovingWindow.new 1000000 10 0).this_start + 1)
      (MovingWindow.new 1000000 10 0) 5000000 =
      some ((MovingWindow.new 1000000 10 0).allowed 5000000) :=
  spec_C9 (MovingWindow.new 1000000 10 0) 5000000 (by decide)

/-- **C10**: with `limit ≥ 1`, a denied `TokenBucket::allowed` call
mutates nothing — denial happens exactly when no token was credited
(`new_tokens = 0`) and `tokens` was already zero, so the returned state
is the input state. -/
theorem spec_C10 (s : TokenBucket) (now : Nat) (hl : 1 ≤ s.limit)
    (hdeny : (s.allowed now).1 = false) :
    (s.allowed now).2 = s ∧ s.new_tokens now = 0 ∧ s.tokens = 0 := by
  unfold TokenBucket.allowed at hdeny ⊢
  dsimp only at hdeny ⊢
  by_cases h : 0 < s.new_tokens now
  · exfalso
    simp only [if_pos h] at hdeny
    have hmin : min (s.tokens + s.new_tokens now) s.limit ≠ 0 := by omega
    rw [if_neg hmin] at hdeny
    simp at hdeny
  · have hz : s.new_tokens now = 0 := by omega
    simp only [if_neg h] at hdeny ⊢
    by_cases ht : s.tokens = 0
    · refine ⟨?_, hz, ht⟩
      simp [ht]
    · simp only [if_neg ht] at hdeny
      simp at hdeny

/-- Witness for C10: a fresh bucket denied at zero elapsed time. -/
theorem spec_C10_witness :
    ((TokenBucket.new 49 1 0).allowed 0).2 = TokenBucket.new 49 1 0 ∧
    (TokenBucket.new 49 1 0).new_tokens 0 = 0 ∧
    (TokenBucket.new 49 1 0).tokens = 0 :=
  spec_C10 (TokenBucket.new 49 1 0) 0 (by decide) (by decide)
